import Mathlib

/-!
# Trading Journal — verification of the statistics engine and client glue

This file embeds, in Lean 4, the parts of the trading-journal application
that the verified claims are about:

* the **statistics aggregation engine** (global stats, profit factor,
  drawdown / equity curve, error breakdown).  The engine lives in the
  FastAPI backend, whose Python sources are not part of the checked-out
  tree; those definitions are therefore modelled from the specification
  (each such definition carries a doc comment starting with
  `Modelled from the spec:`).
* the **frontend client glue** (query-string construction, form
  submission, stats-card rendering, image-URL resolution), translated
  directly from the JavaScript sources `api.js` / `app.js` / `config.js`.

Numbers are modelled as rationals (`ℚ`); JavaScript `null`/`undefined`
and `NaN`-producing parses are modelled with `Option`.
-/

/-- Rounding to two decimals, used by the engine for `winrate` and
`expectancy` (`round` is round-half-up on rationals). -/
def round2 (q : ℚ) : ℚ := (round (q * 100) : ℚ) / 100

/-- Modelled from the spec: the **Trade** record of §3 (backend model not
under `src/`).  Only the fields the aggregation engine reads are kept;
`result_r = none` encodes the SQL `null` of an unscored trade. -/
structure Trade where
  date : Int
  instrument : String
  session : String
  setup : String
  direction : String
  result_r : Option ℚ
  pnl_usd : Option ℚ
  duration_min : Option Int
  respected_plan : Bool
  error : Bool
  error_type : String
  mental_state : Option Int
deriving DecidableEq, Repr

/-- Helper for building concrete trades in examples: all categorical
fields defaulted, only `date` and `result_r` vary. -/
def mkTrade (d : Int) (r : Option ℚ) : Trade :=
  { date := d, instrument := "EURUSD", session := "london", setup := "A",
    direction := "LONG", result_r := r, pnl_usd := none, duration_min := none,
    respected_plan := true, error := false, error_type := "None",
    mental_state := none }

/-- Modelled from the spec: §4.1 scored-trade filter — the sub-collection
of trades with non-null `result_r`, preserving order. -/
def scoredTrades (ts : List Trade) : List Trade :=
  ts.filter (fun t => t.result_r.isSome)

/-- The `result_r` of a trade, with `0` for the (never aggregated)
unscored case. -/
def resultOf (t : Trade) : ℚ := t.result_r.getD 0

/-- Modelled from the spec: §4.2 `winrate` — winning scored trades over
scored trades × 100, rounded to two decimals, `0` when there are no
scored trades. -/
def winrate (ts : List Trade) : ℚ :=
  let s := scoredTrades ts
  if s.length = 0 then 0
  else round2 ((s.countP (fun t => decide (0 < resultOf t)) : ℚ) / (s.length : ℚ) * 100)

/-- Modelled from the spec: §4.2 `expectancy` — mean `result_r` over
scored trades, rounded to two decimals, `0` when there are none. -/
def expectancy (ts : List Trade) : ℚ :=
  let s := scoredTrades ts
  if s.length = 0 then 0
  else round2 ((s.map resultOf).sum / (s.length : ℚ))

/-- Modelled from the spec: §4.2 `total_r` — sum of `result_r` over
scored trades. -/
def totalR (ts : List Trade) : ℚ := ((scoredTrades ts).map resultOf).sum

/-- Modelled from the spec: §4.2 `total_pnl_usd` — sum of `pnl_usd` over
scored trades having a non-null `pnl_usd`. -/
def totalPnlUsd (ts : List Trade) : ℚ :=
  (((scoredTrades ts).filterMap (fun t => t.pnl_usd))).sum

/-- Modelled from the spec: the gross winning sum
`sum(result_r where result_r > 0)` of §4.2. -/
def winSum (ts : List Trade) : ℚ :=
  (((scoredTrades ts).map resultOf).filter (fun q => decide (0 < q))).sum

/-- Modelled from the spec: the gross losing sum
`sum(result_r where result_r < 0)` of §4.2 (before taking the absolute
value). -/
def lossSum (ts : List Trade) : ℚ :=
  (((scoredTrades ts).map resultOf).filter (fun q => decide (q < 0))).sum

/-- Modelled from the spec: the `profit_factor` codomain — §9 asks for an
explicit special case for the "infinite" sentinel rather than a numeric
magnitude. -/
inductive ProfitFactor where
  | fin : ℚ → ProfitFactor
  | infinite : ProfitFactor
deriving DecidableEq, Repr

/-- Modelled from the spec: §4.2 `profit_factor` — winning sum over the
absolute losing sum; the sentinel when the denominator is zero and the
numerator positive; `0` when both are zero. -/
def profitFactor (ts : List Trade) : ProfitFactor :=
  let w := winSum ts
  let l := |lossSum ts|
  if l = 0 then (if w = 0 then ProfitFactor.fin 0 else ProfitFactor.infinite)
  else ProfitFactor.fin (w / l)

/-- Modelled from the spec: §4.2 `discipline_rate` — trades with
`respected_plan = true` over all input trades × 100, `0` when empty. -/
def disciplineRate (ts : List Trade) : ℚ :=
  if ts.length = 0 then 0
  else (ts.countP (fun t => t.respected_plan) : ℚ) / (ts.length : ℚ) * 100

/-- Modelled from the spec: one step of the §4.4 drawdown walk.  State is
`(C, P, M)`: cumulative sum, running peak, maximum drawdown so far. -/
def ddStep (s : ℚ × ℚ × ℚ) (r : ℚ) : ℚ × ℚ × ℚ :=
  let c := s.1 + r
  let p := max s.2.1 c
  (c, p, max s.2.2 (p - c))

/-- Modelled from the spec: §4.4 `max_drawdown_r` over the date-ordered
sequence of scored `result_r` values, with `C`, `P` and the running
maximum all initialized to `0` before the first trade. -/
def maxDrawdownR (rs : List ℚ) : ℚ := (rs.foldl ddStep (0, 0, 0)).2.2

/-- Modelled from the spec: the sequence of drawdowns `D = P - C`
observed after each trade of the §4.4 walk, starting from cumulative sum
`c` and peak `p`. -/
def ddList (c p : ℚ) : List ℚ → List ℚ
  | [] => []
  | r :: rs => (max p (c + r) - (c + r)) :: ddList (c + r) (max p (c + r)) rs

/-- Chronological comparison of trades by entry `date` (§4.4). -/
def dateLE (a b : Trade) : Prop := a.date ≤ b.date

/-- Strict chronological comparison of trades by entry `date`. -/
def dateLT (a b : Trade) : Prop := a.date < b.date

instance : DecidableRel dateLE := fun a b => inferInstanceAs (Decidable (a.date ≤ b.date))

instance : IsTotal Trade dateLE := ⟨fun a b => Int.le_total a.date b.date⟩

instance : IsTrans Trade dateLE := ⟨fun _ _ _ h h' => le_trans h h'⟩

instance : IsAntisymm Trade dateLT :=
  ⟨fun _ _ h h' => absurd (lt_trans h h') (lt_irrefl _)⟩

/-- Modelled from the spec: §4.4 chronological (stable) sort of trades by
`date`. -/
def sortByDate (ts : List Trade) : List Trade := List.insertionSort dateLE ts

/-- Modelled from the spec: the `result_r` sequence of the scored trades
in chronological order — the input of the §4.4 walk. -/
def resultsByDate (ts : List Trade) : List ℚ :=
  (sortByDate (scoredTrades ts)).map resultOf

/-- Modelled from the spec: §4.4 `max_drawdown_r` of a trade collection. -/
def maxDrawdown (ts : List Trade) : ℚ := maxDrawdownR (resultsByDate ts)

/-- Modelled from the spec: the `(date, C)` points of the §4.4 equity
curve, one per scored trade, from cumulative sum `c`. -/
def equityPoints (c : ℚ) : List Trade → List (Int × ℚ)
  | [] => []
  | t :: rest => (t.date, c + resultOf t) :: equityPoints (c + resultOf t) rest

/-- Modelled from the spec: §4.4 equity curve of a trade collection. -/
def equityCurve (ts : List Trade) : List (Int × ℚ) :=
  equityPoints 0 (sortByDate (scoredTrades ts))

/-- Modelled from the spec: §4.3 grouped statistics for one `setup` group
key — `winrate`, `expectancy`, `total_r`, `profit_factor` restricted to
the trades sharing the key, plus the count of all input trades sharing
it. -/
def setupStats (k : String) (ts : List Trade) : ℚ × ℚ × ℚ × ProfitFactor × Nat :=
  let g := ts.filter (fun t => t.setup = k)
  (winrate g, expectancy g, totalR g, profitFactor g, g.length)

/-- Modelled from the spec: §4.3 grouped statistics for one `session`
group key. -/
def sessionStats (k : String) (ts : List Trade) : ℚ × ℚ × ℚ × ProfitFactor × Nat :=
  let g := ts.filter (fun t => t.session = k)
  (winrate g, expectancy g, totalR g, profitFactor g, g.length)

/-- Modelled from the spec: §4.6 — the scored trades with `error = true`,
the only ones error breakdowns may count. -/
def erroredTrades (ts : List Trade) : List Trade :=
  (scoredTrades ts).filter (fun t => t.error)

/-- Modelled from the spec: §4.6 error statistics — one record
`(error_type, count, percentage, avg_loss_r)` per distinct `error_type`
among the errored trades, in order of first appearance. -/
def errorStats (ts : List Trade) : List (String × Nat × ℚ × ℚ) :=
  let es := erroredTrades ts
  let keys := (es.map (fun t => t.error_type)).eraseDups
  keys.map (fun k =>
    let g := es.filter (fun t => t.error_type = k)
    (k, g.length, (g.length : ℚ) / (es.length : ℚ) * 100,
      (g.map resultOf).sum / (g.length : ℚ)))

/-- Modelled from the spec: §3 invariant — the engine normalizes the
`error_type` of a trade with `error = false` to the sentinel `"none"`. -/
def normErrorType (t : Trade) : String :=
  if t.error then t.error_type else "none"

/-! ## Frontend client glue, translated from the JavaScript sources -/

/-- From `app.js` `handleTradeSubmit`: the submitted `error_type` is the
selected value when the `trade-error` field holds `'true'`, and the
literal `'None'` otherwise. -/
def buildErrorType (errField : String) (selected : String) : String :=
  if errField = "true" then selected else "None"

/-- JavaScript `parseFloat(v) || null` on an already-parsed field value:
`none` models a `NaN` parse (empty or non-numeric input); a parsed `0` is
falsy and also becomes `null`. -/
def jsNumOrNull (x : Option ℚ) : Option ℚ :=
  match x with
  | none => none
  | some v => if v = 0 then none else some v

/-- JavaScript `parseInt(v) || null`, same falsiness rule on integers. -/
def jsIntOrNull (x : Option Int) : Option Int :=
  match x with
  | none => none
  | some v => if v = 0 then none else some v

/-- The three nullable numeric fields of the outgoing trade payload built
by `handleTradeSubmit`. -/
structure SubmittedNums where
  result_r : Option ℚ
  pnl_usd : Option ℚ
  duration_min : Option Int
deriving DecidableEq, Repr

/-- From `app.js` `handleTradeSubmit`: the nullable numeric fields of the
payload, each computed as `parseFloat(...) || null` (resp. `parseInt`). -/
def buildSubmittedNums (resultField pnlField : Option ℚ) (durField : Option Int) :
    SubmittedNums :=
  { result_r := jsNumOrNull resultField
    pnl_usd := jsNumOrNull pnlField
    duration_min := jsIntOrNull durField }

/-- From `api.js`: `getDailyStats(days = 30)` — the endpoint string, with
`none` modelling a call without argument (JS default parameter). -/
def getDailyStats (days : Option Nat) : String :=
  "/stats/daily?days=" ++ toString (days.getD 30)

/-- From `api.js`: `getWeeklyStats(weeks = 12)` — the endpoint string,
with `none` modelling a call without argument. -/
def getWeeklyStats (weeks : Option Nat) : String :=
  "/stats/weekly?weeks=" ++ toString (weeks.getD 12)

/-- The `params` object accepted by `api.js` `getTrades`; `none` models a
JS `undefined` field. -/
structure GetTradesParams where
  page : Option Nat
  pageSize : Option Nat
  instrument : Option String
  session : Option String
  setup : Option String
  direction : Option String
  dateFrom : Option String
  dateTo : Option String
  isWinner : Option Bool
deriving DecidableEq, Repr

/-- JavaScript truthiness of a possibly-undefined number: `undefined` and
`0` are falsy. -/
def jsTruthyNat (x : Option Nat) : Bool :=
  match x with
  | none => false
  | some n => decide (n ≠ 0)

/-- JavaScript truthiness of a possibly-undefined string: `undefined` and
the empty string are falsy. -/
def jsTruthyStr (x : Option String) : Bool :=
  match x with
  | none => false
  | some s => decide (s ≠ "")

/-- One conditional `queryParams.append(k, v)` call: a singleton when the
guard is truthy, nothing otherwise. -/
def qItem (c : Bool) (kv : String × String) : List (String × String) :=
  if c then [kv] else []

/-- From `api.js` `getTrades`: the ordered key/value pairs appended to
`URLSearchParams` — every filter guarded by truthiness, except
`is_winner`, guarded by `!== undefined`. -/
def getTradesQuery (p : GetTradesParams) : List (String × String) :=
  qItem (jsTruthyNat p.page) ("page", toString (p.page.getD 0)) ++
  qItem (jsTruthyNat p.pageSize) ("page_size", toString (p.pageSize.getD 0)) ++
  qItem (jsTruthyStr p.instrument) ("instrument", p.instrument.getD "") ++
  qItem (jsTruthyStr p.session) ("session", p.session.getD "") ++
  qItem (jsTruthyStr p.setup) ("setup", p.setup.getD "") ++
  qItem (jsTruthyStr p.direction) ("direction", p.direction.getD "") ++
  qItem (jsTruthyStr p.dateFrom) ("date_from", p.dateFrom.getD "") ++
  qItem (jsTruthyStr p.dateTo) ("date_to", p.dateTo.getD "") ++
  (match p.isWinner with
   | none => []
   | some b => [("is_winner", toString b)])

/-- The keys of `getTradesQuery`'s output. -/
def getTradesKeys (p : GetTradesParams) : List String :=
  (getTradesQuery p).map Prod.fst

/-- Modelled from the spec: §6 — the JSON field names of the global-stats
wire record, in the order the backend serializes them. -/
def statKeys : List String :=
  ["total_trades", "winrate", "expectancy", "total_r", "total_pnl_usd",
   "max_drawdown_r", "discipline_rate", "profit_factor"]

/-- Modelled from the spec: the serialized global-stats record assembled
by the engine — one `(field name, value)` pair per §4.2 metric, numeric
values wrapped in `ProfitFactor.fin` so the `profit_factor` sentinel fits
the same value type. -/
def globalStatsJson (ts : List Trade) : List (String × ProfitFactor) :=
  [("total_trades", .fin (ts.length : ℚ)),
   ("winrate", .fin (winrate ts)),
   ("expectancy", .fin (expectancy ts)),
   ("total_r", .fin (totalR ts)),
   ("total_pnl_usd", .fin (totalPnlUsd ts)),
   ("max_drawdown_r", .fin (maxDrawdown ts)),
   ("discipline_rate", .fin (disciplineRate ts)),
   ("profit_factor", profitFactor ts)]

/-- From `app.js` `updateStatsCards`: the dashboard card updates, as
`(element id, displayed value)` pairs; the stats record is modelled as a
field-name lookup, mirroring the eight `stats.<field>` reads. -/
def updateStatsCards (stats : String → ℚ) : List (String × ℚ) :=
  [("stat-total-trades", stats "total_trades"),
   ("stat-winrate", stats "winrate"),
   ("stat-expectancy", stats "expectancy"),
   ("stat-total-r", stats "total_r"),
   ("stat-pnl", stats "total_pnl_usd"),
   ("stat-drawdown", stats "max_drawdown_r"),
   ("stat-discipline", stats "discipline_rate"),
   ("stat-pf", stats "profit_factor")]

/-- Character-list comparison underlying JavaScript
`String.prototype.startsWith`. -/
def strStarts : List Char → List Char → Bool
  | [], _ => true
  | _ :: _, [] => false
  | p :: ps, c :: cs => p = c && strStarts ps cs

/-- JavaScript `s.startsWith(pre)` on Lean strings. -/
def jsStartsWith (s pre : String) : Bool := strStarts pre.data s.data

/-- From `config.js`: `CONFIG.API_BASE_URL` (development value). -/
def API_BASE_URL : String := "http://localhost:8000"

/-- From `app.js` `getImageUrl`: a full `http(s)` URL is returned
unchanged, anything else is prefixed with the API base URL. -/
def getImageUrl (imageUrl : String) : String :=
  if jsStartsWith imageUrl "http://" || jsStartsWith imageUrl "https://" then imageUrl
  else API_BASE_URL ++ imageUrl

/-- Ten scored trades, six of them winners — the §8 winrate example. -/
def exampleTrades : List Trade :=
  [mkTrade 1 (some 2), mkTrade 2 (some 1), mkTrade 3 (some 3),
   mkTrade 4 (some (1/2)), mkTrade 5 (some 1), mkTrade 6 (some 2),
   mkTrade 7 (some (-1)), mkTrade 8 (some (-2)), mkTrade 9 (some 0),
   mkTrade 10 (some (-1))]

/-- A single winning scored trade — the §8 profit-factor example
(winning sum `+10`, losing sum `0`). -/
def exampleWinOnly : List Trade := [mkTrade 1 (some 10)]

/-! ## Helper lemmas -/

/-- The seed is a lower bound of a left fold by `max`. -/
theorem le_foldl_max (l : List ℚ) : ∀ m : ℚ, m ≤ l.foldl max m := by
  induction l with
  | nil => intro m; exact le_refl m
  | cons a l ih =>
      intro m
      calc m ≤ max m a := le_max_left m a
      _ ≤ (l.foldl max (max m a)) := ih (max m a)

/-- The drawdown walk accumulates exactly the fold by `max` of the
drawdown sequence. -/
theorem foldl_ddStep_eq (rs : List ℚ) :
    ∀ c p m : ℚ, ((rs.foldl ddStep (c, p, m)).2.2) = (ddList c p rs).foldl max m := by
  induction rs with
  | nil => intro c p m; rfl
  | cons r rs ih =>
      intro c p m
      simpa [ddList, ddStep] using ih (c + r) (max p (c + r)) (max m (max p (c + r) - (c + r)))

/-- On a walk that never goes down past the peak (`p ≤ c`, all steps
non-negative, accumulator already non-negative), the accumulated maximum
drawdown never changes. -/
theorem foldl_ddStep_nonneg (rs : List ℚ) :
    ∀ c p m : ℚ, (∀ r ∈ rs, 0 ≤ r) → p ≤ c → 0 ≤ m →
      ((rs.foldl ddStep (c, p, m)).2.2) = m := by
  induction rs with
  | nil => intro c p m _ _ _; rfl
  | cons r rs ih =>
      intro c p m hall hpc hm
      have hr : 0 ≤ r := hall r (List.mem_cons_self r rs)
      have hcc : c ≤ c + r := by linarith
      have hp : max p (c + r) = c + r := max_eq_right (le_trans hpc hcc)
      have step : ddStep (c, p, m) r = (c + r, c + r, m) := by
        simp [ddStep, hp, hm, max_eq_left hm]
      rw [List.foldl_cons, step]
      exact ih (c + r) (c + r) m (fun x hx => hall x (List.mem_cons_of_mem r hx))
        (le_refl _) hm

/-- C1.  Modelled from the spec (§4.4): over the date-ordered `result_r`
sequence, `max_drawdown_r` is the maximum of the drawdowns `P - C`
observed after each trade of the cumulative-sum/running-peak walk started
at `0`; it is always non-negative, it is `0` when every `result_r` is
non-negative, and on `[+2, -1, +1, -3, +2]` it equals `3`. -/
theorem claim_C1 (rs : List ℚ) :
    maxDrawdownR rs = (ddList 0 0 rs).foldl max 0
    ∧ 0 ≤ maxDrawdownR rs
    ∧ ((∀ r ∈ rs, 0 ≤ r) → maxDrawdownR rs = 0)
    ∧ maxDrawdownR [2, -1, 1, -3, 2] = 3 := by
  refine ⟨foldl_ddStep_eq rs 0 0 0, ?_, ?_, ?_⟩
  · rw [maxDrawdownR, foldl_ddStep_eq rs 0 0 0]
    exact le_foldl_max _ 0
  · intro hall
    exact foldl_ddStep_nonneg rs 0 0 0 hall (le_refl 0) (le_refl 0)
  · norm_num [maxDrawdownR, List.foldl_cons, List.foldl_nil, ddStep, max_def]

/-- Concrete instantiation of `claim_C1`: on the all-non-negative walk
`[1, 2]` the maximum drawdown is `0`. -/
theorem claim_C1_witness : maxDrawdownR [1, 2] = 0 :=
  (claim_C1 [1, 2]).2.2.1 (by decide)

/-- `round2` keeps values inside `[0, 100]`. -/
theorem round2_bounds {q : ℚ} (h0 : 0 ≤ q) (h1 : q ≤ 100) :
    0 ≤ round2 q ∧ round2 q ≤ 100 := by
  have hr : round (q * 100) = ⌊q * 100 + 1 / 2⌋ := round_eq (q * 100)
  constructor
  · have hfl : (0 : ℤ) ≤ ⌊q * 100 + 1 / 2⌋ := Int.floor_nonneg.mpr (by linarith)
    rw [round2, hr]
    positivity
  · have hle : (⌊q * 100 + 1 / 2⌋ : ℚ) ≤ q * 100 + 1 / 2 := Int.floor_le _
    have hlt : (⌊q * 100 + 1 / 2⌋ : ℚ) < 10001 := by linarith
    have hz : ⌊q * 100 + 1 / 2⌋ < (10001 : ℤ) := by exact_mod_cast hlt
    have hz' : ⌊q * 100 + 1 / 2⌋ ≤ (10000 : ℤ) := by omega
    have hq : (⌊q * 100 + 1 / 2⌋ : ℚ) ≤ 10000 := by exact_mod_cast hz'
    rw [round2, hr]
    linarith

/-- C2.  Modelled from the spec (§4.2, §8): `winrate` is the share of
winning scored trades × 100 rounded to two decimals; it is `0` where
there are no scored trades (no division by zero), always lies in
`[0, 100]`, and equals `60` on ten scored trades with six winners. -/
theorem claim_C2 (ts : List Trade) :
    (scoredTrades ts = [] → winrate ts = 0)
    ∧ (0 ≤ winrate ts ∧ winrate ts ≤ 100)
    ∧ winrate exampleTrades = 60 := by
  refine ⟨?_, ?_, ?_⟩
  · intro h
    simp [winrate, h]
  · by_cases h : (scoredTrades ts).length = 0
    · simp [winrate, h]
    · have hlen : 0 < ((scoredTrades ts).length : ℚ) := by
        exact_mod_cast Nat.pos_of_ne_zero h
      have hcnt : ((scoredTrades ts).countP (fun t => decide (0 < resultOf t)) : ℚ)
          ≤ ((scoredTrades ts).length : ℚ) := by
        exact_mod_cast List.countP_le_length _
      have hq0 : 0 ≤ ((scoredTrades ts).countP (fun t => decide (0 < resultOf t)) : ℚ)
          / ((scoredTrades ts).length : ℚ) * 100 := by positivity
      have hq100 : ((scoredTrades ts).countP (fun t => decide (0 < resultOf t)) : ℚ)
          / ((scoredTrades ts).length : ℚ) * 100 ≤ 100 := by
        have hdiv : ((scoredTrades ts).countP (fun t => decide (0 < resultOf t)) : ℚ)
            / ((scoredTrades ts).length : ℚ) ≤ 1 := (div_le_one hlen).mpr hcnt
        linarith
      have hb := round2_bounds hq0 hq100
      simpa [winrate, h] using hb
  · have hfl : ⌊(60 : ℚ) * 100 + 1 / 2⌋ = 6000 := by
      rw [Int.floor_eq_iff]
      norm_num
    have hcount : winrate exampleTrades = round2 60 := by
      norm_num [winrate, exampleTrades, mkTrade, scoredTrades, resultOf]
    rw [hcount, round2, round_eq, hfl]
    norm_num

/-- Concrete instantiation of `claim_C2`: the empty collection has
`winrate = 0`. -/
theorem claim_C2_witness : winrate [] = 0 :=
  (claim_C2 []).1 rfl

/-- C3.  Modelled from the spec (§4.2, §8): `profit_factor` is the
winning sum over the absolute losing sum; with a zero denominator it is
the "infinite" sentinel when the numerator is positive (no runtime
division error) and `0` when both are zero. -/
theorem claim_C3 (ts : List Trade) :
    (|lossSum ts| ≠ 0 → profitFactor ts = ProfitFactor.fin (winSum ts / |lossSum ts|))
    ∧ (|lossSum ts| = 0 → 0 < winSum ts → profitFactor ts = ProfitFactor.infinite)
    ∧ (|lossSum ts| = 0 → winSum ts = 0 → profitFactor ts = ProfitFactor.fin 0) := by
  refine ⟨?_, ?_, ?_⟩
  · intro h
    simp [profitFactor, h]
  · intro h hw
    simp [profitFactor, h, ne_of_gt hw]
  · intro h hw
    simp [profitFactor, h, hw]

/-- Concrete instantiation of `claim_C3`: one winning trade of `+10 R`
and no losers yields the "infinite" sentinel. -/
theorem claim_C3_witness : profitFactor exampleWinOnly = ProfitFactor.infinite :=
  (claim_C3 exampleWinOnly).2.1
    (by simp [lossSum, exampleWinOnly, mkTrade, scoredTrades, resultOf])
    (by simp [winSum, exampleWinOnly, mkTrade, scoredTrades, resultOf])

/-- A permutation of the input permutes the scored trades. -/
theorem scoredTrades_perm {ts ts' : List Trade} (h : ts.Perm ts') :
    (scoredTrades ts).Perm (scoredTrades ts') := h.filter _

/-- `winrate` is order-independent. -/
theorem winrate_perm {ts ts' : List Trade} (h : ts.Perm ts') :
    winrate ts = winrate ts' := by
  have hs := scoredTrades_perm h
  simp only [winrate, hs.length_eq, hs.countP_eq]

/-- `expectancy` is order-independent. -/
theorem expectancy_perm {ts ts' : List Trade} (h : ts.Perm ts') :
    expectancy ts = expectancy ts' := by
  have hs := scoredTrades_perm h
  simp only [expectancy, hs.length_eq, (hs.map resultOf).sum_eq]

/-- `total_r` is order-independent. -/
theorem totalR_perm {ts ts' : List Trade} (h : ts.Perm ts') :
    totalR ts = totalR ts' := by
  simp only [totalR, ((scoredTrades_perm h).map resultOf).sum_eq]

/-- `total_pnl_usd` is order-independent. -/
theorem totalPnlUsd_perm {ts ts' : List Trade} (h : ts.Perm ts') :
    totalPnlUsd ts = totalPnlUsd ts' := by
  simp only [totalPnlUsd, ((scoredTrades_perm h).filterMap (fun t => t.pnl_usd)).sum_eq]

/-- `profit_factor` is order-independent. -/
theorem profitFactor_perm {ts ts' : List Trade} (h : ts.Perm ts') :
    profitFactor ts = profitFactor ts' := by
  have hw : winSum ts = winSum ts' := by
    simp only [winSum, (((scoredTrades_perm h).map resultOf).filter _).sum_eq]
  have hl : lossSum ts = lossSum ts' := by
    simp only [lossSum, (((scoredTrades_perm h).map resultOf).filter _).sum_eq]
  simp only [profitFactor, hw, hl]

/-- `discipline_rate` is order-independent. -/
theorem disciplineRate_perm {ts ts' : List Trade} (h : ts.Perm ts') :
    disciplineRate ts = disciplineRate ts' := by
  simp only [disciplineRate, h.length_eq, h.countP_eq]

/-- A chronologically `≤`-sorted list whose dates are pairwise distinct
is strictly sorted by date. -/
theorem sorted_dateLT_of_sorted_nodup {l : List Trade}
    (hs : List.Sorted dateLE l) (hn : (l.map Trade.date).Nodup) :
    List.Sorted dateLT l := by
  have hne : l.Pairwise (fun a b => a.date ≠ b.date) := List.pairwise_map.mp hn
  exact (hs.and hne).imp (fun hab => lt_of_le_of_ne hab.1 hab.2)

/-- Two permuted trade lists with pairwise-distinct dates sort to the
same chronological sequence. -/
theorem sortByDate_eq_of_perm {l l' : List Trade} (h : l.Perm l')
    (hn : (l.map Trade.date).Nodup) : sortByDate l = sortByDate l' := by
  have hp : (sortByDate l).Perm (sortByDate l') :=
    (List.perm_insertionSort dateLE l).trans
      (h.trans (List.perm_insertionSort dateLE l').symm)
  have hn1 : ((sortByDate l).map Trade.date).Nodup :=
    (((List.perm_insertionSort dateLE l).map Trade.date).nodup_iff).mpr hn
  have hn2 : ((sortByDate l').map Trade.date).Nodup :=
    ((hp.map Trade.date).nodup_iff).mp hn1
  exact List.eq_of_perm_of_sorted hp
    (sorted_dateLT_of_sorted_nodup (List.sorted_insertionSort dateLE l) hn1)
    (sorted_dateLT_of_sorted_nodup (List.sorted_insertionSort dateLE l') hn2)

/-- Distinct dates survive restriction to the scored trades. -/
theorem scored_dates_nodup {ts : List Trade} (hn : (ts.map Trade.date).Nodup) :
    ((scoredTrades ts).map Trade.date).Nodup :=
  hn.sublist ((List.filter_sublist ts).map Trade.date)

/-- C4.  Modelled from the spec (§4.2, §8): `total_r` is the sum of
`result_r` over scored trades and — like every global and grouped
aggregate — is invariant under permutation of the input; the equity
curve and `max_drawdown_r` depend only on the chronological date order
(two permuted inputs with pairwise-distinct dates agree on them). -/
theorem claim_C4 (ts ts' : List Trade) (hp : ts.Perm ts') :
    totalR ts = ((scoredTrades ts).map resultOf).sum
    ∧ totalR ts = totalR ts'
    ∧ ts.length = ts'.length
    ∧ winrate ts = winrate ts'
    ∧ expectancy ts = expectancy ts'
    ∧ totalPnlUsd ts = totalPnlUsd ts'
    ∧ profitFactor ts = profitFactor ts'
    ∧ disciplineRate ts = disciplineRate ts'
    ∧ (∀ k, setupStats k ts = setupStats k ts')
    ∧ (∀ k, sessionStats k ts = sessionStats k ts')
    ∧ ((ts.map Trade.date).Nodup →
        maxDrawdown ts = maxDrawdown ts' ∧ equityCurve ts = equityCurve ts') := by
  refine ⟨rfl, totalR_perm hp, hp.length_eq, winrate_perm hp, expectancy_perm hp,
    totalPnlUsd_perm hp, profitFactor_perm hp, disciplineRate_perm hp, ?_, ?_, ?_⟩
  · intro k
    have hg : (ts.filter (fun t => t.setup = k)).Perm (ts'.filter (fun t => t.setup = k)) :=
      hp.filter _
    simp only [setupStats, winrate_perm hg, expectancy_perm hg, totalR_perm hg,
      profitFactor_perm hg, hg.length_eq]
  · intro k
    have hg : (ts.filter (fun t => t.session = k)).Perm (ts'.filter (fun t => t.session = k)) :=
      hp.filter _
    simp only [sessionStats, winrate_perm hg, expectancy_perm hg, totalR_perm hg,
      profitFactor_perm hg, hg.length_eq]
  · intro hn
    have hsort : sortByDate (scoredTrades ts) = sortByDate (scoredTrades ts') :=
      sortByDate_eq_of_perm (scoredTrades_perm hp) (scored_dates_nodup hn)
    constructor
    · simp only [maxDrawdown, resultsByDate, hsort]
    · simp only [equityCurve, hsort]

/-- Concrete instantiation of `claim_C4`: swapping two trades with
distinct dates changes neither `total_r` nor `max_drawdown_r`. -/
theorem claim_C4_witness :
    totalR [mkTrade 1 (some 2), mkTrade 2 (some (-1))]
        = totalR [mkTrade 2 (some (-1)), mkTrade 1 (some 2)]
    ∧ maxDrawdown [mkTrade 1 (some 2), mkTrade 2 (some (-1))]
        = maxDrawdown [mkTrade 2 (some (-1)), mkTrade 1 (some 2)] :=
  ⟨(claim_C4 _ _ (List.Perm.swap _ _ [])).2.1,
   ((claim_C4 _ _ (List.Perm.swap _ _ [])).2.2.2.2.2.2.2.2.2.2 (by decide)).1⟩

/-- Trades with `error = false` do not affect the errored sub-collection. -/
theorem erroredTrades_filter (ts : List Trade) :
    erroredTrades (ts.filter (fun t => t.error)) = erroredTrades ts := by
  induction ts with
  | nil => rfl
  | cons t ts ih =>
      by_cases he : t.error = true <;>
        by_cases hs : t.result_r.isSome = true <;>
          simp [erroredTrades, scoredTrades, List.filter_cons, he, hs] <;>
            simpa [erroredTrades, scoredTrades] using ih

/-- C5.  The engine (modelled from the spec §3/§4.6) never counts a trade
with `error = false` in error breakdowns — `errorStats` is unchanged by
dropping them — and normalizes its `error_type` to the sentinel `"none"`;
the form-submission path (`app.js` `handleTradeSubmit`) builds
`error_type` as the selected value exactly when the error field is
`'true'` and as the literal `'None'` otherwise. -/
theorem claim_C5 (ts : List Trade) (t : Trade) (errField sel : String) :
    errorStats (ts.filter (fun t => t.error)) = errorStats ts
    ∧ (t.error = false → normErrorType t = "none")
    ∧ buildErrorType "true" sel = sel
    ∧ (errField ≠ "true" → buildErrorType errField sel = "None") := by
  refine ⟨?_, ?_, ?_, ?_⟩
  · simp only [errorStats, erroredTrades_filter]
  · intro h
    simp [normErrorType, h]
  · simp [buildErrorType]
  · intro h
    simp [buildErrorType, h]

/-- Concrete instantiation of `claim_C5`: an `error = false` trade is
normalized to `"none"`, and a form submission with the error field at
`'false'` sends the literal `'None'`. -/
theorem claim_C5_witness :
    normErrorType (mkTrade 1 none) = "none"
    ∧ buildErrorType "false" "FOMO" = "None" :=
  ⟨(claim_C5 [] (mkTrade 1 none) "false" "FOMO").2.1 rfl,
   (claim_C5 [] (mkTrade 1 none) "false" "FOMO").2.2.2 (by decide)⟩

/-- C6.  From `api.js`: `getDailyStats` and `getWeeklyStats` default
their caller-supplied lookback window to `30` daily buckets and `12`
weekly buckets when called without an argument, and otherwise forward
the caller's value. -/
theorem claim_C6 :
    getDailyStats none = "/stats/daily?days=30"
    ∧ getWeeklyStats none = "/stats/weekly?weeks=12"
    ∧ (∀ d, getDailyStats (some d) = "/stats/daily?days=" ++ toString d)
    ∧ (∀ w, getWeeklyStats (some w) = "/stats/weekly?weeks=" ++ toString w) :=
  ⟨rfl, rfl, fun _ => rfl, fun _ => rfl⟩

/-- A stats record that sets one field name to `1` and every other to `0`
renders differently from the all-zero record exactly when that field is
read; packaging for the sensitivity half of C7. -/
theorem cards_sensitive (key : String)
    (hne : updateStatsCards (fun _ => 0) ≠ updateStatsCards (fun k' => if k' = key then 1 else 0)) :
    ∃ f g : String → ℚ,
      (∀ k', k' ≠ key → f k' = g k') ∧ updateStatsCards f ≠ updateStatsCards g :=
  ⟨fun _ => 0, fun k' => if k' = key then 1 else 0, fun k' hk => by simp [hk], hne⟩

/-- C7.  The serialized global-stats record (modelled from the spec §6)
carries exactly the eight field names `total_trades`, `winrate`,
`expectancy`, `total_r`, `total_pnl_usd`, `max_drawdown_r`,
`discipline_rate`, `profit_factor`, and the presentation layer
(`app.js` `updateStatsCards`) reads precisely these eight names: its
output is determined by them, and every one of them matters. -/
theorem claim_C7 :
    (∀ ts : List Trade, (globalStatsJson ts).map Prod.fst = statKeys)
    ∧ (∀ f g : String → ℚ, (∀ k ∈ statKeys, f k = g k) →
        updateStatsCards f = updateStatsCards g)
    ∧ (∀ k ∈ statKeys, ∃ f g : String → ℚ,
        (∀ k', k' ≠ k → f k' = g k') ∧ updateStatsCards f ≠ updateStatsCards g) := by
  refine ⟨fun ts => rfl, ?_, ?_⟩
  · intro f g h
    have h1 := h "total_trades" (by simp [statKeys])
    have h2 := h "winrate" (by simp [statKeys])
    have h3 := h "expectancy" (by simp [statKeys])
    have h4 := h "total_r" (by simp [statKeys])
    have h5 := h "total_pnl_usd" (by simp [statKeys])
    have h6 := h "max_drawdown_r" (by simp [statKeys])
    have h7 := h "discipline_rate" (by simp [statKeys])
    have h8 := h "profit_factor" (by simp [statKeys])
    simp [updateStatsCards, h1, h2, h3, h4, h5, h6, h7, h8]
  · intro k hk
    fin_cases hk <;> exact cards_sensitive _ (by decide)

/-- `parseFloat(v) || null` yields `null` exactly on `NaN` or `0`. -/
theorem jsNumOrNull_eq_none (x : Option ℚ) :
    jsNumOrNull x = none ↔ x = none ∨ x = some 0 := by
  cases x with
  | none => simp [jsNumOrNull]
  | some v =>
      by_cases h : v = 0 <;> simp [jsNumOrNull, h]

/-- `parseInt(v) || null` yields `null` exactly on `NaN` or `0`. -/
theorem jsIntOrNull_eq_none (x : Option Int) :
    jsIntOrNull x = none ↔ x = none ∨ x = some 0 := by
  cases x with
  | none => simp [jsIntOrNull]
  | some v =>
      by_cases h : v = 0 <;> simp [jsIntOrNull, h]

/-- C8.  From `app.js` `handleTradeSubmit`: the outgoing `result_r`,
`pnl_usd` and `duration_min` are `null` exactly when the entered value
parses to `NaN` (empty or non-numeric input) or to `0`, because each is
computed as `parseFloat(value) || null` (resp. `parseInt`); in
particular a genuine `0`-R result is sent as `null`, never as `0`, while
any non-zero parse is forwarded unchanged. -/
theorem claim_C8 (r p : Option ℚ) (d : Option Int) :
    ((buildSubmittedNums r p d).result_r = none ↔ r = none ∨ r = some 0)
    ∧ ((buildSubmittedNums r p d).pnl_usd = none ↔ p = none ∨ p = some 0)
    ∧ ((buildSubmittedNums r p d).duration_min = none ↔ d = none ∨ d = some 0)
    ∧ (buildSubmittedNums (some 0) p d).result_r = none
    ∧ (∀ v : ℚ, v ≠ 0 → (buildSubmittedNums (some v) p d).result_r = some v) := by
  refine ⟨jsNumOrNull_eq_none r, jsNumOrNull_eq_none p, jsIntOrNull_eq_none d, ?_, ?_⟩
  · simp [buildSubmittedNums, jsNumOrNull]
  · intro v hv
    simp [buildSubmittedNums, jsNumOrNull, hv]

/-- Concrete instantiation of `claim_C8`: an entered `0` is sent as
`null`, an entered `2` is sent as-is. -/
theorem claim_C8_witness :
    (buildSubmittedNums (some 0) none none).result_r = none
    ∧ (buildSubmittedNums (some 2) none none).result_r = some 2 :=
  ⟨(claim_C8 (some 0) none none).2.2.2.1,
   (claim_C8 (some 2) none none).2.2.2.2 2 (by decide)⟩

/-- Membership in one conditional `append` call. -/
theorem mem_qItem (c : Bool) (kv x : String × String) :
    x ∈ qItem c kv ↔ (c = true ∧ x = kv) := by
  cases c <;> simp [qItem]

/-- C9.  From `api.js` `getTrades`: each filter key is in the query
exactly when its parameter is truthy, whereas `is_winner` is included
exactly when the parameter is not `undefined`; consequently
`isWinner = false` is sent while `page = 0` or an empty-string filter is
dropped. -/
theorem claim_C9 (p : GetTradesParams) :
    ("page" ∈ getTradesKeys p ↔ jsTruthyNat p.page = true)
    ∧ ("page_size" ∈ getTradesKeys p ↔ jsTruthyNat p.pageSize = true)
    ∧ ("instrument" ∈ getTradesKeys p ↔ jsTruthyStr p.instrument = true)
    ∧ ("session" ∈ getTradesKeys p ↔ jsTruthyStr p.session = true)
    ∧ ("setup" ∈ getTradesKeys p ↔ jsTruthyStr p.setup = true)
    ∧ ("direction" ∈ getTradesKeys p ↔ jsTruthyStr p.direction = true)
    ∧ ("date_from" ∈ getTradesKeys p ↔ jsTruthyStr p.dateFrom = true)
    ∧ ("date_to" ∈ getTradesKeys p ↔ jsTruthyStr p.dateTo = true)
    ∧ ("is_winner" ∈ getTradesKeys p ↔ p.isWinner ≠ none)
    ∧ jsTruthyNat (some 0) = false
    ∧ jsTruthyStr (some "") = false := by
  obtain ⟨pg, ps, ins, se, st, di, df, dt, iw⟩ := p
  cases iw <;>
    simp +decide [getTradesKeys, getTradesQuery, mem_qItem]

/-- Concrete instantiation of `claim_C7`: the `winrate` field is among
the read field names, so some pair of stats records differing only there
renders differently. -/
theorem claim_C7_witness :
    ∃ f g : String → ℚ,
      (∀ k', k' ≠ "winrate" → f k' = g k')
      ∧ updateStatsCards f ≠ updateStatsCards g :=
  claim_C7.2.2 "winrate" (by simp [statKeys])

/-- C10.  From `app.js` `getImageUrl` and `config.js`: an input starting
with `http://` or `https://` is returned unchanged — and only such inputs
are — while anything else is prefixed with `CONFIG.API_BASE_URL`. -/
theorem claim_C10 (u : String) :
    ((jsStartsWith u "http://" || jsStartsWith u "https://") = true → getImageUrl u = u)
    ∧ ((jsStartsWith u "http://" || jsStartsWith u "https://") = false →
        getImageUrl u = API_BASE_URL ++ u)
    ∧ (getImageUrl u = u ↔ (jsStartsWith u "http://" || jsStartsWith u "https://") = true) := by
  refine ⟨?_, ?_, ?_, ?_⟩
  · intro h
    simp [getImageUrl, h]
  · intro h
    simp [getImageUrl, h]
  · intro he
    by_cases hc : (jsStartsWith u "http://" || jsStartsWith u "https://") = true
    · exact hc
    · exfalso
      have hb : (jsStartsWith u "http://" || jsStartsWith u "https://") = false :=
        Bool.eq_false_iff.mpr hc
      have hu : getImageUrl u = API_BASE_URL ++ u := by simp [getImageUrl, hb]
      have hlen := congrArg String.length (hu.symm.trans he)
      rw [String.length_append] at hlen
      have hbase : API_BASE_URL.length = 21 := rfl
      omega
  · intro h
    simp [getImageUrl, h]

/-- Concrete instantiation of `claim_C10`: a Supabase-style full URL is
kept, a local upload path is prefixed with the API base URL. -/
theorem claim_C10_witness :
    getImageUrl "https://supabase.co/img.png" = "https://supabase.co/img.png"
    ∧ getImageUrl "/uploads/1.png" = API_BASE_URL ++ "/uploads/1.png" :=
  ⟨(claim_C10 "https://supabase.co/img.png").1 (by decide),
   (claim_C10 "/uploads/1.png").2.1 (by decide)⟩

/-- Concrete instantiation of `claim_C9`: with `page = 0` and
`isWinner = false`, the query carries `is_winner` but not `page`. -/
theorem claim_C9_witness :
    "is_winner" ∈ getTradesKeys
      ⟨some 0, none, none, none, none, none, none, none, some false⟩
    ∧ "page" ∉ getTradesKeys
      ⟨some 0, none, none, none, none, none, none, none, some false⟩ :=
  ⟨(claim_C9 _).2.2.2.2.2.2.2.2.1.mpr (by simp),
   fun h => absurd ((claim_C9 _).1.mp h) (by decide)⟩
